import Mathlib

/-!
Verification development for the PDF image extractor
(`src/lib/pdf-extractor.ts`, `src/lib/server-extraction-handler.ts`,
`server-extraction.ts`).

The TypeScript source is shallowly embedded: byte buffers are `List Nat`
(each element a byte value; a JavaScript out-of-range read `bytes[i] ===
undefined` is modelled by the default value `256`, which is distinct from
every byte), pdf.js is abstracted as an environment mapping a buffer and a
load-configuration name to either a parsed document or an error message,
and the `onProgress` callback is modelled by accumulating the list of
percentage values passed to it.  Timestamps, durations, hash values and
the rendered pixel data are not modelled; the `Math.sqrt` used for the
memory-ceiling scale reduction is tracked through the square of the scale
(`scaleSq`), which determines every quantity the development reasons
about, so all arithmetic stays in `ℚ`.
-/

/-- One row of `DiagnosticInfo.attempts` (timestamps and free-form
`details` are not modelled). -/
structure AttemptEntry where
  method : String
  success : Bool
  error : Option String := none
  imageCount : Option Nat := none
deriving DecidableEq, Repr

/-- What the model needs of one page of a parsed document: whether its
operator list contains `paintImageXObject`/`paintInlineImageXObject`, and
the base viewport dimensions at scale 1. -/
structure PageInfo where
  hasImageOp : Bool
  baseW : ℚ
  baseH : ℚ
deriving DecidableEq

/-- A parsed `PDFDocumentProxy`: its pages and the metadata encryption
flag read by `checkIfEncrypted`. -/
structure PdfDoc where
  pages : List PageInfo
  isEncrypted : Bool
deriving DecidableEq

/-- One `ExtractedImage`.  `scaleSq` is the square of the render scale
(the source computes the scale itself with `Math.sqrt`; squaring it
recovers a rational), and `estMem` is the estimated memory footprint
`width * height * 4` of the emitted render. -/
structure ExtractedItem where
  pageNumber : Nat
  format : String
  quality : ℚ
  scaleSq : ℚ
  estMem : ℚ
deriving DecidableEq

/-- The `File` argument of `extractImagesFromPDF`: name, MIME type and
content bytes (`file.size` is the content length). -/
structure FileInput where
  name : String
  mimeType : String
  content : List Nat
deriving DecidableEq

/-- Result of `initializePDFWorker`. -/
structure WorkerInit where
  success : Bool
  errMsg : Option String := none
deriving DecidableEq

/-- Everything one run of `extractImagesFromPDF` produces: the returned
value or thrown `PDFExtractionError` message, the diagnostic error code,
the accumulated `diagnostic.attempts`, `diagnostic.autoRepairUsed`, and
the percentages passed to `onProgress` in order. -/
structure RunOutput where
  result : Except String (List ExtractedItem × Nat)
  errorCode : Option String
  attempts : List AttemptEntry
  autoRepairUsed : Option String
  progress : List ℚ

/-- `MAX_FILE_SIZE = 200 * 1024 * 1024`. -/
def MAX_FILE_SIZE : Nat := 200 * 1024 * 1024

/-- `MAX_PAGES = 1000`. -/
def MAX_PAGES : Nat := 1000

/-- `MAX_MEMORY_PER_IMAGE = 50 * 1024 * 1024`, as a rational because it
is compared against products of viewport dimensions. -/
def MAX_MEMORY_PER_IMAGE : ℚ := 50 * 1024 * 1024

/-- The bytes `\n%%EOF` appended by the missing-trailer repair
(`[0x0A, 0x25, 0x25, 0x45, 0x4F, 0x46]`). -/
def eofAppendBytes : List Nat := [10, 37, 37, 69, 79, 70]

/-- The five-byte `%%EOF` marker searched for by `findEOFMarker`. -/
def eofMarkerBytes : List Nat := [37, 37, 69, 79, 70]

/-- The five header bytes `%PDF-` that `validatePDFHeader` requires. -/
def pdfMagic5 : List Nat := [37, 80, 68, 70, 45]

/-- `validatePDFHeader`: the first five bytes, read as a string, must
equal `%PDF-`.  A buffer shorter than five bytes yields a shorter string,
which never matches. -/
def validatePDFHeader (bs : List Nat) : Bool :=
  bs.take 5 = pdfMagic5

/-- The four-byte test `bytes[i] === 0x25 && bytes[i+1] === 0x50 &&
bytes[i+2] === 0x44 && bytes[i+3] === 0x46` (note: `%PDF`, no dash).
Out-of-range reads are `undefined` in JavaScript and never equal a byte;
the model reads them as `256`. -/
def magicAt (bs : List Nat) (i : Nat) : Bool :=
  bs.getD i 256 = 37 ∧ bs.getD (i + 1) 256 = 80 ∧
  bs.getD (i + 2) 256 = 68 ∧ bs.getD (i + 3) 256 = 70

/-- `hasPDFHeader` in `attemptPDFRepair`: the four-byte magic at offset
zero. -/
def hasPDFHeader (bs : List Nat) : Bool :=
  magicAt bs 0

/-- The scan loop of `findPDFHeaderIndex`, with the remaining iteration
count made explicit: `findFrom bs fuel i` checks offsets
`i, i+1, ..., i+fuel-1` in order and returns the first offset where the
four-byte magic matches, else `-1`. -/
def findFrom (bs : List Nat) : Nat → Nat → Int
  | 0, _ => -1
  | fuel + 1, i => if magicAt bs i then (i : Int) else findFrom bs fuel (i + 1)

/-- `findPDFHeaderIndex`: scan offsets `i < min(bytes.length - 5, 1024)`
for the four-byte `%PDF` magic (JavaScript `bytes.length - 5` is negative
for short buffers, giving zero iterations, which `Nat` truncated
subtraction reproduces). -/
def findPDFHeaderIndex (bs : List Nat) : Int :=
  findFrom bs (min (bs.length - 5) 1024) 0

/-- A signed-index read, `none` for any index outside the buffer
(JavaScript `undefined`). -/
def atIdxI (bs : List Nat) (i : Int) : Option Nat :=
  if 0 ≤ i then bs[i.toNat]? else none

/-- The inner loop of `findEOFMarker`: does the five-byte `%%EOF` marker
occupy `bytes[i-4 .. i]` (comparison `bytes[i - 5 + 1 + j] ===
eofMarker[j]` for `j < 5`, with out-of-range reads failing)? -/
def eofMatchAt (bs : List Nat) (i : Nat) : Bool :=
  (List.range 5).all fun j => atIdxI bs ((i : Int) - 4 + j) = some (eofMarkerBytes.getD j 0)

/-- The outer loop of `findEOFMarker`, scanning end positions downwards:
`eofGo bs fuel i` checks `i, i-1, ..., i-fuel+1`. -/
def eofGo (bs : List Nat) : Nat → Nat → Bool
  | 0, _ => false
  | fuel + 1, i => if eofMatchAt bs i then true else eofGo bs fuel (i - 1)

/-- `findEOFMarker`: scan end positions from `bytes.length - 1` down to
`max(0, bytes.length - 1024)` for the `%%EOF` marker; the loop runs
`min(bytes.length, 1024)` times. -/
def findEOFMarker (bs : List Nat) : Bool :=
  eofGo bs (min bs.length 1024) (bs.length - 1)

/-- `attemptPDFRepair`: leading-junk strip when the buffer does not start
with the four-byte magic but the magic is found at a positive offset,
else the `%%EOF` append when the trailer marker is missing, else no
repair.  Returns the repaired buffer (or `none`) together with the
diagnostic entries the function pushes. -/
def attemptPDFRepair (bs : List Nat) : Option (List Nat) × List AttemptEntry :=
  if ¬ hasPDFHeader bs ∧ 0 < findPDFHeaderIndex bs then
    (some (bs.drop (findPDFHeaderIndex bs).toNat),
     [{ method := "header_repair", success := true }])
  else if ¬ findEOFMarker bs then
    (some (bs ++ eofAppendBytes),
     [{ method := "eof_repair", success := true }])
  else
    (none,
     [{ method := "pdf_repair", success := false, error := some "No repairs applicable" }])

/-- Does the character list `s` start with `pat`? -/
def listStartsWith : List Char → List Char → Bool
  | _, [] => true
  | [], _ :: _ => false
  | c :: cs, p :: ps => c = p ∧ listStartsWith cs ps

/-- Does `pat` occur as a contiguous run inside `s`? -/
def listContainsSub (pat : List Char) : List Char → Bool
  | [] => listStartsWith [] pat
  | c :: cs => listStartsWith (c :: cs) pat || listContainsSub pat cs

/-- JavaScript `String.prototype.includes`: substring occurrence. -/
def strIncludes (s pat : String) : Bool :=
  listContainsSub pat.data s.data

/-- The load-strategy environment: what `pdfjsLib.getDocument(config)`
does, as a function of the buffer handed to the chain and the name of the
configuration tried (the six configurations differ only in fixed option
flags, so the name determines the config). -/
def LoadEnv : Type := List Nat → String → Except String PdfDoc

/-- The six configuration names of `tryLoadPDFWithFallbacks`, in source
order: strict+worker, lenient+worker, minimal+worker, strict+no-worker,
lenient+no-worker, minimal+no-worker. -/
def loadMethods : List String :=
  ["standard_load_with_worker", "load_with_recovery_worker",
   "load_ignore_errors_worker", "standard_load_no_worker",
   "load_with_recovery_no_worker", "load_minimal_no_worker"]

/-- The `for (const attempt of attempts)` loop of
`tryLoadPDFWithFallbacks`: try each configuration in order; on success
push a success entry, set `autoRepairUsed` to the method name unless it
is the first configuration, and return the document; on failure push a
failure entry, remember the error as `lastError` and continue.  When the
list is exhausted the last error is thrown. -/
def chainGo (o : String → Except String PdfDoc) :
    List String → String → Except String PdfDoc × List AttemptEntry × Option String
  | [], lastErr => (Except.error lastErr, [], none)
  | m :: rest, _ =>
    match o m with
    | Except.ok pdf =>
      (Except.ok pdf, [{ method := m, success := true }],
       if m ≠ "standard_load_with_worker" then some m else none)
    | Except.error e =>
      let r := chainGo o rest e
      (r.1, { method := m, success := false, error := some e } :: r.2.1, r.2.2)

/-- `tryLoadPDFWithFallbacks`: push the `worker_initialization` entry,
then run the configuration chain. -/
def tryLoadPDFWithFallbacks (env : LoadEnv) (wi : WorkerInit) (buf : List Nat) :
    Except String PdfDoc × List AttemptEntry × Option String :=
  let r := chainGo (env buf) loadMethods ""
  (r.1, { method := "worker_initialization", success := wi.success, error := wi.errMsg } :: r.2.1,
   r.2.2)

/-- Whether an `Except` is a success. -/
def isOkB {ε α : Type} : Except ε α → Bool
  | Except.ok _ => true
  | Except.error _ => false

/-- The error text carried by a failed load outcome (`""` for a success,
never used in that case). -/
def errText (r : Except String PdfDoc) : String :=
  match r with
  | Except.error e => e
  | Except.ok _ => ""

/-- Modelled from the spec's words for the Load-Strategy Chain invariant:
the index of the first configuration that succeeds (`6` when none
does). -/
def firstSuccessIdx (o : String → Except String PdfDoc) : Nat :=
  loadMethods.findIdx fun m => isOkB (o m)

/-- Modelled from the spec's words: the chain's result is the first
successful configuration's document, or the last configuration's error
when every configuration fails. -/
def specLoadResult (o : String → Except String PdfDoc) : Except String PdfDoc :=
  match loadMethods[firstSuccessIdx o]? with
  | some m => o m
  | none => Except.error (errText (o "load_minimal_no_worker"))

/-- Modelled from the spec's words: one failure entry per configuration
tried before the first success, in canonical order, then one success
entry for the succeeding configuration (no entry after it); all six as
failures when none succeeds. -/
def specChainEntries (o : String → Except String PdfDoc) : List AttemptEntry :=
  ((loadMethods.take (firstSuccessIdx o)).map fun m =>
    { method := m, success := false, error := some (errText (o m)) }) ++
  (match loadMethods[firstSuccessIdx o]? with
   | some m => [{ method := m, success := true }]
   | none => [])

/-- Modelled from the spec's words: when the succeeding configuration is
not the first one, its name is recorded as the auto-repair method used;
otherwise nothing is recorded. -/
def specAutoRepair (o : String → Except String PdfDoc) : Option String :=
  match loadMethods[firstSuccessIdx o]? with
  | some m => if m ≠ "standard_load_with_worker" then some m else none
  | none => none

/-- The default page handed back for an out-of-range `getPage` call;
never reached for in-range page numbers. -/
def defaultPage : PageInfo := { hasImageOp := false, baseW := 0, baseH := 0 }

/-- The image-bearing-page branch of `extractEmbeddedImages`: render at
scale 2; if the estimated memory `width * height * 4` exceeds the ceiling,
re-render at `adjustedScale = Math.sqrt(ceiling / (width * height * 4))`
(an absolute scale, not a multiplier) and emit JPEG at quality 0.9, else
emit PNG at scale 2.  `adjustedScale` appears through its square. -/
def embeddedRenderPage (pageNum : Nat) (pg : PageInfo) : ExtractedItem :=
  let scale : ℚ := 2
  let vW := scale * pg.baseW
  let vH := scale * pg.baseH
  if vW * vH * 4 > MAX_MEMORY_PER_IMAGE then
    let adjScaleSq := MAX_MEMORY_PER_IMAGE / (vW * vH * 4)
    { pageNumber := pageNum, format := "JPEG", quality := 9 / 10,
      scaleSq := adjScaleSq, estMem := adjScaleSq * pg.baseW * pg.baseH * 4 }
  else
    { pageNumber := pageNum, format := "PNG", quality := 1,
      scaleSq := scale ^ 2, estMem := vW * vH * 4 }

/-- The per-page body of `rasterizePages`: render at `scale = dpi / 72`;
if the estimated memory exceeds the ceiling, use `useScale =
Math.sqrt(ceiling / estimatedMemory) * scale` and JPEG at quality 0.85,
else PNG at the original scale.  `useScale` appears through its
square. -/
def rasterRenderPage (pageNum : Nat) (pg : PageInfo) (dpi : ℚ) : ExtractedItem :=
  let scale := dpi / 72
  let vW := scale * pg.baseW
  let vH := scale * pg.baseH
  let estimatedMemory := vW * vH * 4
  if estimatedMemory > MAX_MEMORY_PER_IMAGE then
    let useScaleSq := MAX_MEMORY_PER_IMAGE / estimatedMemory * scale ^ 2
    { pageNumber := pageNum, format := "JPEG", quality := 85 / 100,
      scaleSq := useScaleSq, estMem := useScaleSq * pg.baseW * pg.baseH * 4 }
  else
    { pageNumber := pageNum, format := "PNG", quality := 1,
      scaleSq := scale ^ 2, estMem := estimatedMemory }

/-- The common shape of the two progress loops: an initial report at
`base`, then `base + ((pageNum / totalPages) * span)` for `pageNum`
from 1 to `n`. -/
def phaseProg (base span : ℚ) (n : Nat) : List ℚ :=
  base :: (List.range n).map fun p : Nat => base + (((p : ℚ) + 1) / (n : ℚ)) * span

/-- `extractEmbeddedImages`: report 20, scan every page's operator list,
render the pages that paint images (page numbers are 1-based), and report
`20 + (pageNum / totalPages) * 50` after each page.  Per-page render
failures are swallowed in the source; renders are total here. -/
def extractEmbeddedImages (pdf : PdfDoc) : List ExtractedItem × List ℚ :=
  let totalPages := pdf.pages.length
  ((List.range totalPages).filterMap fun i =>
    let pg := pdf.pages.getD i defaultPage
    if pg.hasImageOp then some (embeddedRenderPage (i + 1) pg) else none,
   phaseProg 20 50 totalPages)

/-- `rasterizePages`: report 75, render every page (1-based, capped at
`maxPages`) regardless of content, and report
`75 + (pageNum / totalPages) * 20` after each page. -/
def rasterizePages (pdf : PdfDoc) (maxPages : Nat) (dpi : ℚ) : List ExtractedItem × List ℚ :=
  let totalPages := min pdf.pages.length maxPages
  ((List.range totalPages).map fun i =>
    rasterRenderPage (i + 1) (pdf.pages.getD i defaultPage) dpi,
   phaseProg 75 20 totalPages)

/-- The image-acquisition stage of `extractImagesFromPDF` (lines
706-792): run the embedded pass, record it, return on a non-empty yield;
otherwise report 70, run the rasterization pass at 200 DPI capped at 500
pages, record it, return on a non-empty yield; otherwise the run is a
terminal `NO_IMAGES` error. -/
def acquisitionPhase (pdf : PdfDoc) (auto : Option String)
    (a1 : List AttemptEntry) (p1 : List ℚ) : RunOutput :=
  let emb := extractEmbeddedImages pdf
  let a2 := a1 ++ [{ method := "embedded_extraction", success := true,
                     imageCount := some emb.1.length }]
  let p2 := p1 ++ emb.2
  if 0 < emb.1.length then
    { result := Except.ok (emb.1, pdf.pages.length), errorCode := none,
      attempts := a2, autoRepairUsed := auto, progress := p2 ++ [100] }
  else
    let maxPagesToRasterize := min pdf.pages.length 500
    let ras := rasterizePages pdf maxPagesToRasterize 200
    let a3 := a2 ++ [{ method := "rasterization", success := true,
                       imageCount := some ras.1.length }]
    let p3 := p2 ++ [70] ++ ras.2
    if 0 < ras.1.length then
      { result := Except.ok (ras.1, pdf.pages.length), errorCode := none,
        attempts := a3, autoRepairUsed := auto, progress := p3 ++ [100] }
    else
      { result := Except.error "Tidak ada gambar yang dapat diekstrak dari PDF ini.",
        errorCode := some "NO_IMAGES", attempts := a3, autoRepairUsed := auto,
        progress := p3 }

/-- Lines 625-704 of `extractImagesFromPDF`: report 25, run the
load-strategy chain on the (possibly repaired) buffer; classify a chain
failure as `PDF_ENCRYPTED` when the propagated error message contains
password/encryption vocabulary, else `PDF_LOAD_FAILED`; then the
page-count ceiling, the metadata encryption check, and the acquisition
stage. -/
def continueWithBuffer (env : LoadEnv) (wi : WorkerInit) (buf : List Nat)
    (a0 : List AttemptEntry) (p0 : List ℚ) : RunOutput :=
  let p1 := p0 ++ [25]
  let load := tryLoadPDFWithFallbacks env wi buf
  let a1 := a0 ++ load.2.1
  match load.1 with
  | Except.error msg =>
    if strIncludes msg "password" || strIncludes msg "encrypted" then
      { result := Except.error "PDF ini terenkripsi. Silakan buka file dengan sandi terlebih dahulu atau ekspor ulang tanpa enkripsi.",
        errorCode := some "PDF_ENCRYPTED", attempts := a1,
        autoRepairUsed := load.2.2, progress := p1 }
    else
      { result := Except.error "Gagal memuat PDF. File mungkin rusak atau menggunakan format yang tidak didukung.",
        errorCode := some "PDF_LOAD_FAILED", attempts := a1,
        autoRepairUsed := load.2.2, progress := p1 }
  | Except.ok pdf =>
    if MAX_PAGES < pdf.pages.length then
      { result := Except.error "PDF terlalu banyak halaman.",
        errorCode := some "TOO_MANY_PAGES", attempts := a1,
        autoRepairUsed := load.2.2, progress := p1 }
    else if pdf.isEncrypted then
      { result := Except.error "PDF ini memiliki enkripsi. Silakan gunakan file tanpa proteksi.",
        errorCode := some "PDF_ENCRYPTED",
        attempts := a1 ++ [{ method := "encryption_check", success := false,
                             error := some "PDF is encrypted" }],
        autoRepairUsed := load.2.2, progress := p1 }
    else
      acquisitionPhase pdf load.2.2 a1 p1

/-- The `header_validation` failure entry pushed at line 582 (the source
interpolates the observed header text into the message; the model keeps
the fixed part). -/
def headerFailEntry : AttemptEntry :=
  { method := "header_validation", success := false,
    error := some "Invalid PDF header" }

/-- `extractImagesFromPDF`: report 5; the size precheck; the MIME/name
precheck; report 10 and 15; header validation; on failure report 20 and
attempt repair, aborting with `INVALID_PDF` when no repair applies, else
continuing (with an extra entry when the repaired header re-validates);
then the load chain and acquisition. -/
def extractImagesFromPDF (env : LoadEnv) (wi : WorkerInit) (file : FileInput) : RunOutput :=
  if MAX_FILE_SIZE < file.content.length then
    { result := Except.error "File terlalu besar.", errorCode := some "FILE_TOO_LARGE",
      attempts := [], autoRepairUsed := none, progress := [5] }
  else if ¬ (file.mimeType = "application/pdf") ∧ ¬ (file.name.toLower.endsWith ".pdf") then
    { result := Except.error "File bukan PDF. Pastikan file yang diunggah adalah dokumen PDF.",
      errorCode := some "NOT_PDF", attempts := [], autoRepairUsed := none, progress := [5] }
  else
    if validatePDFHeader file.content then
      continueWithBuffer env wi file.content
        [{ method := "header_validation", success := true }] [5, 10, 15]
    else
      let rep := attemptPDFRepair file.content
      match rep.1 with
      | some repairedBuffer =>
        continueWithBuffer env wi repairedBuffer
          (headerFailEntry :: rep.2 ++
            (if validatePDFHeader repairedBuffer then
              [{ method := "header_validation_after_repair", success := true }]
            else []))
          [5, 10, 15, 20]
      | none =>
        { result := Except.error "File rusak atau bukan PDF yang valid. Header file tidak sesuai format PDF.",
          errorCode := some "INVALID_PDF",
          attempts := headerFailEntry :: rep.2,
          autoRepairUsed := none, progress := [5, 10, 15, 20] }

/-- The parsed body of a server extraction response
(`ServerExtractionResult` sans the image payloads: the claims only need
the envelope). -/
structure ServerBody where
  success : Bool
  imageCount : Nat
  errorText : Option String := none
deriving DecidableEq

/-- What the `fetch('/api/extract-images')` call produced: either a
rejected promise with an error message, or an HTTP response with its
status, body text and parsed JSON body. -/
inductive FetchOutcome where
  | netFail (msg : String)
  | httpResponse (status : Nat) (bodyText : String) (bodyJson : ServerBody)
deriving DecidableEq

/-- How one call of `uploadForServerExtraction` ended: a body obtained
from the server, a body obtained from the client-side
`simulateServerExtraction` fallback (Tier 3), or a thrown error. -/
inductive TierResult where
  | fromServer (body : ServerBody)
  | viaTier3 (body : ServerBody)
deriving DecidableEq

/-- `uploadForServerExtraction` (server-extraction.ts): a 404 status
falls back to `simulateServerExtraction`; any other non-2xx status
throws `Server returned ${status}: ${text}`; the catch block falls back
only when the caught message contains `Failed to fetch`, `NetworkError`
or `404`, and re-throws otherwise; a 2xx response returns its JSON body.
`sim` is the body `simulateServerExtraction` would return. -/
def uploadForServerExtraction (fetch : FetchOutcome) (sim : ServerBody) :
    Except String TierResult :=
  match fetch with
  | FetchOutcome.httpResponse status bodyText bodyJson =>
    if status = 404 then Except.ok (TierResult.viaTier3 sim)
    else if ¬ (200 ≤ status ∧ status < 300) then
      let msg := "Server returned " ++ toString status ++ ": " ++ bodyText
      if strIncludes msg "Failed to fetch" || strIncludes msg "NetworkError"
          || strIncludes msg "404" then
        Except.ok (TierResult.viaTier3 sim)
      else Except.error msg
    else Except.ok (TierResult.fromServer bodyJson)
  | FetchOutcome.netFail msg =>
    if strIncludes msg "Failed to fetch" || strIncludes msg "NetworkError"
        || strIncludes msg "404" then
      Except.ok (TierResult.viaTier3 sim)
    else Except.error msg

/-- A one-page document whose page paints an image, small enough to stay
under the memory ceiling. -/
def docOneImagePage : PdfDoc :=
  { pages := [{ hasImageOp := true, baseW := 10, baseH := 10 }], isEncrypted := false }

/-- A one-page text-only document. -/
def docOneTextPage : PdfDoc :=
  { pages := [{ hasImageOp := false, baseW := 10, baseH := 10 }], isEncrypted := false }

/-- A three-page text-only document (no page paints an image). -/
def docThreeTextPages : PdfDoc :=
  { pages := [{ hasImageOp := false, baseW := 10, baseH := 10 },
              { hasImageOp := false, baseW := 12, baseH := 12 },
              { hasImageOp := false, baseW := 8, baseH := 14 }], isEncrypted := false }

/-- A well-formed small PDF file: `%PDF-1.4` header plus an `%%EOF`
trailer. -/
def validPdfFile : FileInput :=
  { name := "a.pdf", mimeType := "application/pdf",
    content := [37, 80, 68, 70, 45, 49, 46, 52, 10, 37, 37, 69, 79, 70] }

/-- A zero-byte upload that carries a PDF filename and MIME type. -/
def emptyPdfFile : FileInput :=
  { name := "empty.pdf", mimeType := "application/pdf", content := [] }

/-- A file whose content is one junk byte followed by a valid header and
trailer (leading-junk repair applies at offset 1). -/
def junkHeaderFile : FileInput :=
  { name := "b.pdf", mimeType := "application/pdf",
    content := 0 :: [37, 80, 68, 70, 45, 49, 46, 52, 10, 37, 37, 69, 79, 70] }

/-- A successful worker initialization. -/
def workerOk : WorkerInit := { success := true }

/-- An environment in which every load configuration fails with a
non-encryption parse error. -/
def envAllFail : LoadEnv := fun _ _ => Except.error "bad XRef entry"

/-- An environment in which every load configuration fails with a
password error. -/
def envAllPassword : LoadEnv := fun _ _ => Except.error "password required"

/-- An environment in which the first (strict+worker) configuration
raises a password error and every later configuration succeeds. -/
def envPasswordThenOk : LoadEnv := fun _ m =>
  if m = "standard_load_with_worker" then Except.error "password required"
  else Except.ok docOneImagePage

/-- An environment in which every configuration parses the buffer into a
one-page text-only document. -/
def envAlwaysTextDoc : LoadEnv := fun _ _ => Except.ok docOneTextPage

/-- A buffer in which the five-byte `%PDF-` magic occurs at offset 6,
but the four-byte `%PDF` (undashed) occurs earlier at offset 1:
`A%PDFX%PDF-1`. -/
def junkMagicBuf : List Nat := [65, 37, 80, 68, 70, 88, 37, 80, 68, 70, 45, 49]

/-- An environment in which every configuration parses the buffer into
the three-page text-only document. -/
def envAlwaysText3 : LoadEnv := fun _ _ => Except.ok docThreeTextPages

/-- A page large enough that a scale-2 render exceeds the 50 MiB
ceiling. -/
def hugePage : PageInfo := { hasImageOp := true, baseW := 10000, baseH := 10000 }

/-- The step relation the progress trace actually satisfies: each report
is at least the previous one, except for the single drop from the
load-chain's final 25 to the embedded scan's opening 20. -/
def progStep (a b : ℚ) : Prop :=
  a ≤ b ∨ (a = 25 ∧ b = 20)

instance (a b : ℚ) : Decidable (progStep a b) := by
  unfold progStep
  infer_instance

/-- Decidable equality for load outcomes, so that concrete runs can be
settled by evaluation. -/
instance {e a : Type} [DecidableEq e] [DecidableEq a] : DecidableEq (Except e a) := fun x y =>
  match x, y with
  | Except.error u, Except.error v =>
    if h : u = v then isTrue (by rw [h]) else isFalse (by simp [h])
  | Except.error _, Except.ok _ => isFalse (by simp)
  | Except.ok _, Except.error _ => isFalse (by simp)
  | Except.ok u, Except.ok v =>
    if h : u = v then isTrue (by rw [h]) else isFalse (by simp [h])

theorem chainGo_eq_spec (o : String → Except String PdfDoc) :
    chainGo o loadMethods "" = (specLoadResult o, specChainEntries o, specAutoRepair o) := by
  rcases h1 : o "standard_load_with_worker" with e1 | p1
  case _ =>
    rcases h2 : o "load_with_recovery_worker" with e2 | p2
    case _ =>
      rcases h3 : o "load_ignore_errors_worker" with e3 | p3
      case _ =>
        rcases h4 : o "standard_load_no_worker" with e4 | p4
        case _ =>
          rcases h5 : o "load_with_recovery_no_worker" with e5 | p5
          case _ =>
            rcases h6 : o "load_minimal_no_worker" with e6 | p6
            all_goals
              simp [chainGo, specLoadResult, specChainEntries, specAutoRepair,
                firstSuccessIdx, loadMethods, errText, isOkB, List.findIdx_cons,
                h1, h2, h3, h4, h5, h6]
          case _ =>
            simp [chainGo, specLoadResult, specChainEntries, specAutoRepair,
              firstSuccessIdx, loadMethods, errText, isOkB, List.findIdx_cons, h1, h2, h3, h4, h5]
        case _ =>
          simp [chainGo, specLoadResult, specChainEntries, specAutoRepair,
            firstSuccessIdx, loadMethods, errText, isOkB, List.findIdx_cons, h1, h2, h3, h4]
      case _ =>
        simp [chainGo, specLoadResult, specChainEntries, specAutoRepair,
          firstSuccessIdx, loadMethods, errText, isOkB, List.findIdx_cons, h1, h2, h3]
    case _ =>
      simp [chainGo, specLoadResult, specChainEntries, specAutoRepair,
        firstSuccessIdx, loadMethods, errText, isOkB, List.findIdx_cons, h1, h2]
  case _ =>
    simp [chainGo, specLoadResult, specChainEntries, specAutoRepair,
      firstSuccessIdx, loadMethods, errText, isOkB, List.findIdx_cons, h1]

/-- C2: for every input buffer the load-strategy chain tries its
configurations in the fixed canonical order (strict+worker,
lenient+worker, minimal+worker, strict+no-worker, lenient+no-worker,
minimal+no-worker), appends one attempt entry per configuration tried
(after the `worker_initialization` entry), never attempts any
configuration after one has succeeded, and when the succeeding
configuration is not the first one records its name as the auto-repair
method used: the chain's behaviour equals the first-success description
`specLoadResult` / `specChainEntries` / `specAutoRepair` modelled from
the spec's words. -/
theorem C2_load_chain_canonical (env : LoadEnv) (wi : WorkerInit) (buf : List Nat) :
    tryLoadPDFWithFallbacks env wi buf =
      (specLoadResult (env buf),
       { method := "worker_initialization", success := wi.success, error := wi.errMsg } ::
         specChainEntries (env buf),
       specAutoRepair (env buf)) := by
  unfold tryLoadPDFWithFallbacks
  rw [chainGo_eq_spec]

/-- C1 counterexample: in an environment where the first load
configuration raises a password error and the second succeeds, the chain
continues past the password error, extraction succeeds (no
`PDF_ENCRYPTED` terminal error), and the diagnostic records two
load-chain configuration attempts, not one. -/
theorem C1_counterexample :
    strIncludes (errText (envPasswordThenOk validPdfFile.content "standard_load_with_worker"))
      "password" = true ∧
    (extractImagesFromPDF envPasswordThenOk workerOk validPdfFile).errorCode = none ∧
    ((extractImagesFromPDF envPasswordThenOk workerOk validPdfFile).attempts.filter
      fun a => loadMethods.contains a.method).length = 2 := by
  decide

/-- C1 as amended: the password/encryption special case fires only after
the whole chain is exhausted — when every configuration fails and the
last configuration's error message contains password/encryption
vocabulary, the run terminates with `PDF_ENCRYPTED`, and the diagnostic
then contains one load-chain attempt entry per configuration (all six,
all failures), not one. -/
theorem C1_encrypted_after_exhausted_chain (env : LoadEnv) (wi : WorkerInit)
    (buf : List Nat) (a0 : List AttemptEntry) (p0 : List ℚ)
    (hfail : ∀ m ∈ loadMethods, isOkB (env buf m) = false)
    (hvocab : strIncludes (errText (env buf "load_minimal_no_worker")) "password" = true ∨
      strIncludes (errText (env buf "load_minimal_no_worker")) "encrypted" = true) :
    (continueWithBuffer env wi buf a0 p0).errorCode = some "PDF_ENCRYPTED" ∧
    (continueWithBuffer env wi buf a0 p0).attempts =
      a0 ++ { method := "worker_initialization", success := wi.success, error := wi.errMsg } ::
        (loadMethods.map fun m =>
          { method := m, success := false, error := some (errText (env buf m)) }) := by
  have f1 := hfail "standard_load_with_worker" (by simp [loadMethods])
  have f2 := hfail "load_with_recovery_worker" (by simp [loadMethods])
  have f3 := hfail "load_ignore_errors_worker" (by simp [loadMethods])
  have f4 := hfail "standard_load_no_worker" (by simp [loadMethods])
  have f5 := hfail "load_with_recovery_no_worker" (by simp [loadMethods])
  have f6 := hfail "load_minimal_no_worker" (by simp [loadMethods])
  have hidx : firstSuccessIdx (env buf) = 6 := by
    simp [firstSuccessIdx, loadMethods, List.findIdx_cons, f1, f2, f3, f4, f5, f6]
  have hload : tryLoadPDFWithFallbacks env wi buf =
      (specLoadResult (env buf),
       { method := "worker_initialization", success := wi.success, error := wi.errMsg } ::
         specChainEntries (env buf),
       specAutoRepair (env buf)) := by
    unfold tryLoadPDFWithFallbacks
    rw [chainGo_eq_spec]
  have hvoc : (strIncludes (errText (env buf "load_minimal_no_worker")) "password" ||
      strIncludes (errText (env buf "load_minimal_no_worker")) "encrypted") = true := by
    rcases hvocab with h | h <;> simp [h]
  constructor
  · simp [continueWithBuffer, hload, specLoadResult, specChainEntries, specAutoRepair, hidx,
      loadMethods, hvoc]
  · simp [continueWithBuffer, hload, specLoadResult, specChainEntries, specAutoRepair, hidx,
      loadMethods, hvoc]

/-- C1 witness: an all-password-failure environment instantiates the
amended statement. -/
theorem C1_witness :
    (continueWithBuffer envAllPassword workerOk validPdfFile.content [] []).errorCode =
      some "PDF_ENCRYPTED" :=
  (C1_encrypted_after_exhausted_chain envAllPassword workerOk validPdfFile.content [] []
    (by decide) (Or.inl (by decide))).1

/-- C4 counterexample: an HTTP 500 from a reachable endpoint makes
`uploadForServerExtraction` throw (`Server returned 500: ...`) instead of
falling back to the client-side Tier-3 extraction. -/
theorem C4_counterexample :
    uploadForServerExtraction
        (FetchOutcome.httpResponse 500 "Internal Server Error"
          { success := false, imageCount := 0, errorText := some "boom" })
        { success := true, imageCount := 2 } =
      Except.error "Server returned 500: Internal Server Error" := by
  decide

/-- C4 as amended: only an HTTP 404 or a network-unreachable rejection
(message containing `Failed to fetch`, `NetworkError` or `404`) falls
back to the Tier-3 client-side extraction; a 2xx response is returned as
the server's own result (success or structured failure alike); any other
non-2xx status whose synthesized message lacks those patterns surfaces as
a thrown error. -/
theorem C4_fallback_boundaries (status : Nat) (bodyText : String)
    (bodyJson sim : ServerBody) (msg : String) :
    (uploadForServerExtraction (FetchOutcome.httpResponse 404 bodyText bodyJson) sim =
      Except.ok (TierResult.viaTier3 sim)) ∧
    (200 ≤ status ∧ status < 300 →
      uploadForServerExtraction (FetchOutcome.httpResponse status bodyText bodyJson) sim =
        Except.ok (TierResult.fromServer bodyJson)) ∧
    (status ≠ 404 → ¬ (200 ≤ status ∧ status < 300) →
      (strIncludes ("Server returned " ++ toString status ++ ": " ++ bodyText)
          "Failed to fetch" = false) →
      (strIncludes ("Server returned " ++ toString status ++ ": " ++ bodyText)
          "NetworkError" = false) →
      (strIncludes ("Server returned " ++ toString status ++ ": " ++ bodyText)
          "404" = false) →
      uploadForServerExtraction (FetchOutcome.httpResponse status bodyText bodyJson) sim =
        Except.error ("Server returned " ++ toString status ++ ": " ++ bodyText)) ∧
    ((strIncludes msg "Failed to fetch" = true ∨ strIncludes msg "NetworkError" = true ∨
        strIncludes msg "404" = true) →
      uploadForServerExtraction (FetchOutcome.netFail msg) sim =
        Except.ok (TierResult.viaTier3 sim)) ∧
    ((strIncludes msg "Failed to fetch" || strIncludes msg "NetworkError" ||
        strIncludes msg "404") = false →
      uploadForServerExtraction (FetchOutcome.netFail msg) sim = Except.error msg) := by
  refine ⟨by simp [uploadForServerExtraction], ?_, ?_, ?_, ?_⟩
  · intro h
    have h404 : status ≠ 404 := by omega
    simp [uploadForServerExtraction, h404, h]
  · intro h404 h2xx hf hn h4
    simp [uploadForServerExtraction, h404, h2xx, hf, hn, h4]
  · intro h
    rcases h with h | h | h <;> simp [uploadForServerExtraction, h]
  · intro h
    simp only [Bool.or_eq_false_iff] at h
    simp [uploadForServerExtraction, h.1.1, h.1.2, h.2]

/-- C4 witness: HTTP 501 with a plain body instantiates the
thrown-error clause of the amended statement. -/
theorem C4_witness :
    uploadForServerExtraction
        (FetchOutcome.httpResponse 501 "Not Implemented" { success := false, imageCount := 0 })
        { success := true, imageCount := 1 } =
      Except.error "Server returned 501: Not Implemented" :=
  (C4_fallback_boundaries 501 "Not Implemented" { success := false, imageCount := 0 }
    { success := true, imageCount := 1 } "m").2.2.1 (by decide) (by decide)
    (by decide) (by decide) (by decide)

/-- C9: for every buffer that reaches the missing-trailer heuristic (the
leading-junk branch did not fire) and on which `findEOFMarker` — the
source's scan of the last 1024 bytes for `%%EOF` — fails, repair returns
exactly the original buffer with the fixed six-byte `\n%%EOF` sequence
appended, altering no other byte, and records the `eof_repair` entry. -/
theorem C9_eof_append (bs : List Nat)
    (hreach : hasPDFHeader bs = true ∨ ¬ 0 < findPDFHeaderIndex bs)
    (hnoeof : findEOFMarker bs = false) :
    attemptPDFRepair bs =
      (some (bs ++ eofAppendBytes), [{ method := "eof_repair", success := true }]) := by
  rcases hreach with h | h <;> simp [attemptPDFRepair, h, hnoeof]

/-- C9 witness: a bare `%PDF-` header with no trailer gets the marker
appended. -/
theorem C9_witness :
    attemptPDFRepair pdfMagic5 =
      (some (pdfMagic5 ++ eofAppendBytes), [{ method := "eof_repair", success := true }]) :=
  C9_eof_append pdfMagic5 (Or.inl (by decide)) (by decide)

theorem findFrom_spec (bs : List Nat) :
    ∀ fuel i : Nat, ∀ k : Int, findFrom bs fuel i = k → 0 ≤ k →
      magicAt bs k.toNat = true ∧ i ≤ k.toNat ∧ k.toNat < i + fuel ∧
      ∀ j : Nat, i ≤ j → j < k.toNat → magicAt bs j = false := by
  intro fuel
  induction fuel with
  | zero =>
    intro i k hk hk0
    simp [findFrom] at hk
    omega
  | succ fuel ih =>
    intro i k hk hk0
    by_cases hm : magicAt bs i
    · simp [findFrom, hm] at hk
      subst hk
      refine ⟨by simpa using hm, by omega, by omega, ?_⟩
      intro j hij hji
      omega
    · simp [findFrom, hm] at hk
      obtain ⟨h1, h2, h3, h4⟩ := ih (i + 1) k hk hk0
      refine ⟨h1, by omega, by omega, ?_⟩
      intro j hij hji
      rcases Nat.eq_or_lt_of_le hij with h | h
      · subst h
        simpa using hm
      · exact h4 j h hji

theorem drop_take_five (bs : List Nat) (k : Nat) (h : k + 5 ≤ bs.length) :
    (bs.drop k).take 5 =
      [bs.getD k 256, bs.getD (k+1) 256, bs.getD (k+2) 256,
       bs.getD (k+3) 256, bs.getD (k+4) 256] := by
  apply List.ext_getElem
  · simp
    omega
  · intro i h1 h2
    have hi : i < 5 := by
      simp at h2
      omega
    simp only [List.getElem_take, List.getElem_drop]
    interval_cases i <;>
      simp_all [List.getD_eq_getElem?_getD, List.getElem?_eq_getElem,
        show k < bs.length by omega, show k + 1 < bs.length by omega,
        show k + 2 < bs.length by omega, show k + 3 < bs.length by omega,
        show k + 4 < bs.length by omega]

/-- C8 counterexample: `junkMagicBuf` fails header validation and
contains the `%PDF-` magic at offset 6 within the first 1024 bytes, yet
repair strips only 1 byte (the first occurrence of the undashed four-byte
`%PDF` scan target), the result differs from dropping 6 bytes, and the
repaired buffer's header does not validate. -/
theorem C8_counterexample :
    validatePDFHeader junkMagicBuf = false ∧
    (junkMagicBuf.drop 6).take 5 = pdfMagic5 ∧
    (attemptPDFRepair junkMagicBuf).1 = some (junkMagicBuf.drop 1) ∧
    junkMagicBuf.drop 1 ≠ junkMagicBuf.drop 6 ∧
    validatePDFHeader (junkMagicBuf.drop 1) = false := by
  decide

/-- C8 as amended: for a buffer failing header validation, the repair
strips exactly the first `k` bytes where `k` is the first offset of the
four-byte `%PDF` magic found by the source's scan (bounded by
`min(length - 5, 1024)`), when that offset is positive; the repaired
buffer's header validates precisely when that occurrence is followed by
the dash byte. -/
theorem C8_leading_junk_strip (bs : List Nat) (k : Nat)
    (_hval : validatePDFHeader bs = false)
    (hfind : findPDFHeaderIndex bs = (k : Int)) (hk : 0 < k) :
    (attemptPDFRepair bs).1 = some (bs.drop k) ∧
    (validatePDFHeader (bs.drop k) = true ↔ bs.getD (k + 4) 256 = 45) := by
  have hfind' : findFrom bs (min (bs.length - 5) 1024) 0 = (k : Int) := hfind
  obtain ⟨hmagic, _, hlt, hmin⟩ :=
    findFrom_spec bs (min (bs.length - 5) 1024) 0 (k : Int) hfind' (by omega)
  have htn : ((k : Int)).toNat = k := Int.toNat_ofNat k
  rw [htn] at hmagic hlt hmin
  have hk5 : k + 5 ≤ bs.length := by omega
  have hnohdr : hasPDFHeader bs = false := by
    simpa [hasPDFHeader] using hmin 0 (Nat.zero_le 0) hk
  have hkint : (0 : Int) < (k : Int) := by exact_mod_cast hk
  obtain ⟨m1, m2, m3, m4⟩ : bs.getD k 256 = 37 ∧ bs.getD (k+1) 256 = 80 ∧
      bs.getD (k+2) 256 = 68 ∧ bs.getD (k+3) 256 = 70 := by
    simpa [magicAt] using hmagic
  constructor
  · simp [attemptPDFRepair, hnohdr, hfind, hkint, htn]
  · rw [validatePDFHeader, drop_take_five bs k hk5]
    simp only [List.getD_eq_getElem?_getD] at m1 m2 m3 m4
    simp [pdfMagic5, m1, m2, m3, m4, List.getD_eq_getElem?_getD]

/-- C8 witness: one junk byte before a valid `%PDF-` header is stripped
exactly. -/
theorem C8_witness :
    (attemptPDFRepair junkHeaderFile.content).1 = some (junkHeaderFile.content.drop 1) :=
  (C8_leading_junk_strip junkHeaderFile.content 1 (by decide) (by decide) (by decide)).1

theorem acquisitionPhase_errorCode (pdf : PdfDoc) (auto : Option String)
    (a1 : List AttemptEntry) (p1 : List ℚ) :
    (acquisitionPhase pdf auto a1 p1).errorCode = none ∨
    (acquisitionPhase pdf auto a1 p1).errorCode = some "NO_IMAGES" := by
  simp only [acquisitionPhase]
  split_ifs <;> simp

theorem continueWithBuffer_errorCode (env : LoadEnv) (wi : WorkerInit) (buf : List Nat)
    (a0 : List AttemptEntry) (p0 : List ℚ) :
    (continueWithBuffer env wi buf a0 p0).errorCode ≠ some "INVALID_PDF" ∧
    (continueWithBuffer env wi buf a0 p0).errorCode ≠ some "NOT_PDF" := by
  rcases h : (tryLoadPDFWithFallbacks env wi buf).1 with e | pdf
  · simp only [continueWithBuffer, h]
    split_ifs <;> simp
  · simp only [continueWithBuffer, h]
    split_ifs <;> try simp
    rcases acquisitionPhase_errorCode pdf (tryLoadPDFWithFallbacks env wi buf).2.2
      (a0 ++ (tryLoadPDFWithFallbacks env wi buf).2.1) (p0 ++ [25]) with hc | hc <;>
      simp [hc]

theorem continueWithBuffer_attempts_super (env : LoadEnv) (wi : WorkerInit) (buf : List Nat)
    (a0 : List AttemptEntry) (p0 : List ℚ) :
    ∀ e, e ∈ a0 ++ (tryLoadPDFWithFallbacks env wi buf).2.1 →
      e ∈ (continueWithBuffer env wi buf a0 p0).attempts := by
  intro e he
  rcases h : (tryLoadPDFWithFallbacks env wi buf).1 with er | pdf <;>
    simp only [continueWithBuffer, h]
  · split_ifs <;> simpa using he
  · split_ifs
    · simpa using he
    · simp [List.mem_append] at he ⊢
      tauto
    · simp only [acquisitionPhase]
      split_ifs <;> simp [List.mem_append] at he ⊢ <;> tauto

theorem specChainEntries_first (o : String → Except String PdfDoc) :
    ∃ e ∈ specChainEntries o, e.method = "standard_load_with_worker" := by
  unfold specChainEntries
  rcases Nat.eq_zero_or_pos (firstSuccessIdx o) with h | h
  · rw [h]
    simp [loadMethods]
  · obtain ⟨k, hk⟩ := Nat.exists_eq_succ_of_ne_zero h.ne'
    rw [hk]
    have htake : loadMethods.take (k + 1) =
        "standard_load_with_worker" :: ((loadMethods.drop 1).take k) := rfl
    rw [htake]
    simp

/-- C10: for every buffer failing header validation (size and MIME
prechecks passing), the `INVALID_PDF` terminal error is raised exactly
when `attemptPDFRepair` returns no buffer; whenever repair returns a
buffer, the run proceeds to the load-strategy chain with that buffer —
also when the repaired buffer's header still fails re-validation, since
the continuation does not depend on the re-validation outcome (it only
adds a diagnostic entry when re-validation succeeds). -/
theorem C10_repair_gate (env : LoadEnv) (wi : WorkerInit) (file : FileInput)
    (hsize : file.content.length ≤ MAX_FILE_SIZE)
    (hmime : file.mimeType = "application/pdf")
    (hhdr : validatePDFHeader file.content = false) :
    ((extractImagesFromPDF env wi file).errorCode = some "INVALID_PDF" ↔
      (attemptPDFRepair file.content).1 = none) ∧
    ∀ rb, (attemptPDFRepair file.content).1 = some rb →
      extractImagesFromPDF env wi file =
        continueWithBuffer env wi rb
          (headerFailEntry :: (attemptPDFRepair file.content).2 ++
            (if validatePDFHeader rb then
              [{ method := "header_validation_after_repair", success := true }]
            else []))
          [5, 10, 15, 20] := by
  have hnotbig : ¬ MAX_FILE_SIZE < file.content.length := by omega
  rcases hrep : (attemptPDFRepair file.content).1 with _ | rb
  · constructor
    · simp [extractImagesFromPDF, hnotbig, hmime, hhdr, hrep]
    · intro rb hrb
      simp [hrep] at hrb
  · constructor
    · have hne := (continueWithBuffer_errorCode env wi rb
        (headerFailEntry :: (attemptPDFRepair file.content).2 ++
          (if validatePDFHeader rb then
            [{ method := "header_validation_after_repair", success := true }]
          else [])) [5, 10, 15, 20]).1
      simp [extractImagesFromPDF, hnotbig, hmime, hhdr, hrep]
      exact fun hcontra => absurd hcontra hne
    · intro rb' hrb'
      have heq : rb = rb' := Option.some_inj.mp hrb'
      subst heq
      simp [extractImagesFromPDF, hnotbig, hmime, hhdr, hrep]

/-- C10 witness: one junk byte before a valid header, with a load
environment that always fails. -/
theorem C10_witness :
    (extractImagesFromPDF envAllFail workerOk junkHeaderFile).errorCode = some "INVALID_PDF" ↔
      (attemptPDFRepair junkHeaderFile.content).1 = none :=
  (C10_repair_gate envAllFail workerOk junkHeaderFile (by decide) (by decide) (by decide)).1

/-- C5 counterexample: on a zero-byte buffer with a PDF filename (in an
environment where every load attempt fails with a parse error), the
missing-trailer repair "succeeds" on the empty buffer, the run records
all six load-chain attempts, and the terminal error is
`PDF_LOAD_FAILED` — not `NOT_PDF` or `INVALID_PDF`, and not free of
parse attempts. -/
theorem C5_counterexample :
    (attemptPDFRepair emptyPdfFile.content).1 = some eofAppendBytes ∧
    (extractImagesFromPDF envAllFail workerOk emptyPdfFile).errorCode =
      some "PDF_LOAD_FAILED" ∧
    ((extractImagesFromPDF envAllFail workerOk emptyPdfFile).attempts.filter
      fun a => loadMethods.contains a.method).length = 6 := by
  decide

/-- C5 as amended: for every load environment, a zero-byte buffer with a
PDF filename passes the prechecks, gets the `%%EOF` marker appended by
the missing-trailer repair, and extraction proceeds to the load-strategy
chain with that six-byte buffer: the strict+worker configuration is
attempted and recorded, and neither `NOT_PDF` nor `INVALID_PDF` is
raised. -/
theorem C5_zero_byte_runs_chain (env : LoadEnv) (wi : WorkerInit) :
    extractImagesFromPDF env wi emptyPdfFile =
      continueWithBuffer env wi eofAppendBytes
        [headerFailEntry, { method := "eof_repair", success := true }] [5, 10, 15, 20] ∧
    (extractImagesFromPDF env wi emptyPdfFile).errorCode ≠ some "NOT_PDF" ∧
    (extractImagesFromPDF env wi emptyPdfFile).errorCode ≠ some "INVALID_PDF" ∧
    ∃ e ∈ (extractImagesFromPDF env wi emptyPdfFile).attempts,
      e.method = "standard_load_with_worker" := by
  have h1 : extractImagesFromPDF env wi emptyPdfFile =
      continueWithBuffer env wi eofAppendBytes
        [headerFailEntry, { method := "eof_repair", success := true }] [5, 10, 15, 20] := rfl
  refine ⟨h1, ?_, ?_, ?_⟩
  · rw [h1]
    exact (continueWithBuffer_errorCode env wi eofAppendBytes
      [headerFailEntry, { method := "eof_repair", success := true }] [5, 10, 15, 20]).2
  · rw [h1]
    exact (continueWithBuffer_errorCode env wi eofAppendBytes
      [headerFailEntry, { method := "eof_repair", success := true }] [5, 10, 15, 20]).1
  · rw [h1]
    obtain ⟨e, he, hm⟩ := specChainEntries_first (env eofAppendBytes)
    refine ⟨e, ?_, hm⟩
    apply continueWithBuffer_attempts_super
    apply List.mem_append_right
    have hTL : (tryLoadPDFWithFallbacks env wi eofAppendBytes).2.1 =
        { method := "worker_initialization", success := wi.success, error := wi.errMsg } ::
          specChainEntries (env eofAppendBytes) := by
      unfold tryLoadPDFWithFallbacks
      rw [chainGo_eq_spec]
    rw [hTL]
    exact List.mem_cons_of_mem _ he

theorem rasterRenderPage_pageNumber (n : Nat) (pg : PageInfo) (dpi : ℚ) :
    (rasterRenderPage n pg dpi).pageNumber = n := by
  simp only [rasterRenderPage]
  split_ifs <;> rfl

theorem rasterizePages_items (pdf : PdfDoc) (maxPages : Nat) (dpi : ℚ) :
    (rasterizePages pdf maxPages dpi).1.length = min pdf.pages.length maxPages ∧
    (rasterizePages pdf maxPages dpi).1.map ExtractedItem.pageNumber =
      (List.range (min pdf.pages.length maxPages)).map (· + 1) := by
  constructor
  · simp [rasterizePages]
  · simp [rasterizePages, List.map_map, Function.comp, rasterRenderPage_pageNumber]

theorem extractEmbeddedImages_nil (pdf : PdfDoc)
    (h : ∀ pg ∈ pdf.pages, pg.hasImageOp = false) :
    (extractEmbeddedImages pdf).1 = [] := by
  simp only [extractEmbeddedImages]
  rw [List.filterMap_eq_nil_iff]
  intro i hi
  rw [List.mem_range] at hi
  have hmem : pdf.pages.getD i defaultPage ∈ pdf.pages := by
    rw [List.getD_eq_getElem pdf.pages defaultPage hi]
    exact List.getElem_mem hi
  have hfalse := h _ hmem
  rw [List.getD_eq_getElem?_getD] at hfalse
  simp [hfalse]

theorem tryLoad_entry_methods (env : LoadEnv) (wi : WorkerInit) (buf : List Nat) :
    ∀ e ∈ (tryLoadPDFWithFallbacks env wi buf).2.1,
      e.method = "worker_initialization" ∨ e.method ∈ loadMethods := by
  intro e he
  have hTL : (tryLoadPDFWithFallbacks env wi buf).2.1 =
      { method := "worker_initialization", success := wi.success, error := wi.errMsg } ::
        specChainEntries (env buf) := by
    unfold tryLoadPDFWithFallbacks
    rw [chainGo_eq_spec]
  rw [hTL] at he
  rcases List.mem_cons.mp he with rfl | he2
  · left
    rfl
  · right
    unfold specChainEntries at he2
    rcases List.mem_append.mp he2 with h | h
    · obtain ⟨m, hm, rfl⟩ := List.mem_map.mp h
      exact List.mem_of_mem_take hm
    · rcases hg : loadMethods[firstSuccessIdx (env buf)]? with _ | m
      · rw [hg] at h
        simp at h
      · rw [hg] at h
        rcases List.mem_singleton.mp h with rfl
        exact List.getElem?_mem hg

theorem acquisitionPhase_raster_iff (pdf : PdfDoc) (auto : Option String)
    (a1 : List AttemptEntry) (p1 : List ℚ)
    (ha1r : ∀ e ∈ a1, e.method ≠ "rasterization") :
    ((∃ e ∈ (acquisitionPhase pdf auto a1 p1).attempts, e.method = "rasterization") ↔
      (extractEmbeddedImages pdf).1.length = 0) := by
  by_cases hemb : (extractEmbeddedImages pdf).1.length = 0
  · simp only [acquisitionPhase, hemb]
    norm_num
    split_ifs with hras <;>
      exact ⟨_, List.mem_append_right _
        (List.mem_cons_of_mem _ (List.mem_singleton_self _)), rfl⟩
  · have hpos' : 0 < (extractEmbeddedImages pdf).1.length := Nat.pos_of_ne_zero hemb
    simp only [acquisitionPhase]
    rw [if_pos hpos']
    refine iff_of_false ?_ hemb
    rintro ⟨e, he, hm⟩
    simp only [List.mem_append, List.mem_singleton] at he
    rcases he with he | rfl
    · exact ha1r e he hm
    · simp at hm

theorem acquisitionPhase_no_ops (pdf : PdfDoc) (auto : Option String)
    (a1 : List AttemptEntry) (p1 : List ℚ)
    (hpos : 0 < pdf.pages.length)
    (hall : ∀ pg ∈ pdf.pages, pg.hasImageOp = false) :
    (acquisitionPhase pdf auto a1 p1).result =
      Except.ok ((rasterizePages pdf (min pdf.pages.length 500) 200).1, pdf.pages.length) ∧
    (∃ e ∈ (acquisitionPhase pdf auto a1 p1).attempts,
      e.method = "embedded_extraction" ∧ e.imageCount = some 0) ∧
    (∃ e ∈ (acquisitionPhase pdf auto a1 p1).attempts,
      e.method = "rasterization" ∧
        e.imageCount = some (rasterizePages pdf (min pdf.pages.length 500) 200).1.length) := by
  have hnil : (extractEmbeddedImages pdf).1 = [] := extractEmbeddedImages_nil pdf hall
  have hemb : (extractEmbeddedImages pdf).1.length = 0 := by rw [hnil]; rfl
  have hmm : min pdf.pages.length (min pdf.pages.length 500) = min pdf.pages.length 500 := by
    omega
  have hras : 0 < (rasterizePages pdf (min pdf.pages.length 500) 200).1.length := by
    rw [(rasterizePages_items pdf (min pdf.pages.length 500) 200).1, hmm]
    omega
  simp only [acquisitionPhase, hemb]
  norm_num
  rw [if_pos hras]
  refine ⟨rfl, ?_, ?_⟩
  · exact ⟨_, List.mem_append_right _ (List.mem_cons_self _ _), rfl, rfl⟩
  · exact ⟨_, List.mem_append_right _
      (List.mem_cons_of_mem _ (List.mem_singleton_self _)), rfl, rfl⟩

/-- C7: for every successfully loaded, unencrypted document within the
page ceiling, the rasterization pass runs exactly when the embedded pass
produced zero items; and when no page's operator list contains an
image-paint operation, the embedded pass yields nothing, the run's result
is the rasterization pass's items — exactly one per page up to the
500-page cap, numbered 1..n — and the diagnostic records both the
`embedded_extraction` (count 0) and `rasterization` attempts. -/
theorem C7_raster_iff_no_embedded (env : LoadEnv) (wi : WorkerInit) (buf : List Nat)
    (a0 : List AttemptEntry) (p0 : List ℚ) (pdf : PdfDoc)
    (hchain : (tryLoadPDFWithFallbacks env wi buf).1 = Except.ok pdf)
    (hpc : pdf.pages.length ≤ MAX_PAGES)
    (henc : pdf.isEncrypted = false)
    (hpos : 0 < pdf.pages.length)
    (ha0 : ∀ e ∈ a0, e.method ≠ "rasterization") :
    ((∃ e ∈ (continueWithBuffer env wi buf a0 p0).attempts, e.method = "rasterization") ↔
      (extractEmbeddedImages pdf).1.length = 0) ∧
    ((∀ pg ∈ pdf.pages, pg.hasImageOp = false) →
      (extractEmbeddedImages pdf).1 = [] ∧
      (continueWithBuffer env wi buf a0 p0).result =
        Except.ok ((rasterizePages pdf (min pdf.pages.length 500) 200).1, pdf.pages.length) ∧
      (rasterizePages pdf (min pdf.pages.length 500) 200).1.length =
        min pdf.pages.length 500 ∧
      (rasterizePages pdf (min pdf.pages.length 500) 200).1.map ExtractedItem.pageNumber =
        (List.range (min pdf.pages.length 500)).map (· + 1) ∧
      (∃ e ∈ (continueWithBuffer env wi buf a0 p0).attempts,
        e.method = "embedded_extraction" ∧ e.imageCount = some 0) ∧
      (∃ e ∈ (continueWithBuffer env wi buf a0 p0).attempts,
        e.method = "rasterization" ∧
          e.imageCount = some (min pdf.pages.length 500))) := by
  have hnotlt : ¬ MAX_PAGES < pdf.pages.length := by omega
  have hred : continueWithBuffer env wi buf a0 p0 =
      acquisitionPhase pdf (tryLoadPDFWithFallbacks env wi buf).2.2
        (a0 ++ (tryLoadPDFWithFallbacks env wi buf).2.1) (p0 ++ [25]) := by
    simp [continueWithBuffer, hchain, hnotlt, henc]
  have ha1r : ∀ e ∈ a0 ++ (tryLoadPDFWithFallbacks env wi buf).2.1,
      e.method ≠ "rasterization" := by
    intro e he
    rcases List.mem_append.mp he with h | h
    · exact ha0 e h
    · rcases tryLoad_entry_methods env wi buf e h with h1 | h1
      · rw [h1]
        decide
      · intro hcontra
        rw [hcontra] at h1
        revert h1
        decide
  constructor
  · rw [hred]
    exact acquisitionPhase_raster_iff pdf _ _ _ ha1r
  · intro hall
    have hmm : min pdf.pages.length (min pdf.pages.length 500) = min pdf.pages.length 500 := by
      omega
    have hitems := rasterizePages_items pdf (min pdf.pages.length 500) 200
    rw [hmm] at hitems
    have hlen := hitems.1
    obtain ⟨hres, hembE, hrasE⟩ :=
      acquisitionPhase_no_ops pdf (tryLoadPDFWithFallbacks env wi buf).2.2
        (a0 ++ (tryLoadPDFWithFallbacks env wi buf).2.1) (p0 ++ [25]) hpos hall
    refine ⟨extractEmbeddedImages_nil pdf hall, ?_, hlen, hitems.2, ?_, ?_⟩
    · rw [hred]
      exact hres
    · rw [hred]
      exact hembE
    · rw [hred]
      rw [hlen] at hrasE
      exact hrasE

/-- C7 witness: a three-page text-only document rasterizes into one item
per page. -/
theorem C7_witness :
    (continueWithBuffer envAlwaysText3 workerOk validPdfFile.content [] []).result =
      Except.ok
        ((rasterizePages docThreeTextPages (min docThreeTextPages.pages.length 500) 200).1,
         docThreeTextPages.pages.length) :=
  ((C7_raster_iff_no_embedded envAlwaysText3 workerOk validPdfFile.content [] []
      docThreeTextPages rfl (by decide) (by decide) (by decide) (by simp)).2 (by decide)).2.1

/-- C6: in both render passes, a page whose estimated footprint
(width x height x 4) at the initially chosen scale exceeds the 50 MiB
ceiling is re-rendered at a reduced, aspect-ratio-preserving scale with
lossy JPEG encoding at quality 0.85-0.9 and the re-rendered footprint is
at most the ceiling (the embedded pass lands at ceiling/4, the
rasterization pass exactly at the ceiling); otherwise the page is emitted
as lossless PNG at the original scale. -/
theorem C6_memory_ceiling (pg : PageInfo) (n : Nat) (dpi : ℚ)
    (hW : 0 < pg.baseW) (hH : 0 < pg.baseH) (hdpi : 0 < dpi) :
    (2 * pg.baseW * (2 * pg.baseH) * 4 > MAX_MEMORY_PER_IMAGE →
      (embeddedRenderPage n pg).format = "JPEG" ∧
      (85 / 100 : ℚ) ≤ (embeddedRenderPage n pg).quality ∧
      (embeddedRenderPage n pg).quality ≤ 9 / 10 ∧
      (embeddedRenderPage n pg).scaleSq < 2 ^ 2 ∧
      (embeddedRenderPage n pg).estMem ≤ MAX_MEMORY_PER_IMAGE ∧
      ∃ s : ℝ, 0 < s ∧ s ^ 2 = ((embeddedRenderPage n pg).scaleSq : ℝ) ∧
        s * (pg.baseW : ℝ) / (s * (pg.baseH : ℝ)) = (pg.baseW : ℝ) / (pg.baseH : ℝ)) ∧
    (¬ 2 * pg.baseW * (2 * pg.baseH) * 4 > MAX_MEMORY_PER_IMAGE →
      (embeddedRenderPage n pg).format = "PNG" ∧
      (embeddedRenderPage n pg).scaleSq = 2 ^ 2 ∧
      (embeddedRenderPage n pg).estMem = 2 * pg.baseW * (2 * pg.baseH) * 4) ∧
    (dpi / 72 * pg.baseW * (dpi / 72 * pg.baseH) * 4 > MAX_MEMORY_PER_IMAGE →
      (rasterRenderPage n pg dpi).format = "JPEG" ∧
      (85 / 100 : ℚ) ≤ (rasterRenderPage n pg dpi).quality ∧
      (rasterRenderPage n pg dpi).quality ≤ 9 / 10 ∧
      (rasterRenderPage n pg dpi).scaleSq < (dpi / 72) ^ 2 ∧
      (rasterRenderPage n pg dpi).estMem ≤ MAX_MEMORY_PER_IMAGE ∧
      ∃ s : ℝ, 0 < s ∧ s ^ 2 = ((rasterRenderPage n pg dpi).scaleSq : ℝ) ∧
        s * (pg.baseW : ℝ) / (s * (pg.baseH : ℝ)) = (pg.baseW : ℝ) / (pg.baseH : ℝ)) ∧
    (¬ dpi / 72 * pg.baseW * (dpi / 72 * pg.baseH) * 4 > MAX_MEMORY_PER_IMAGE →
      (rasterRenderPage n pg dpi).format = "PNG" ∧
      (rasterRenderPage n pg dpi).scaleSq = (dpi / 72) ^ 2 ∧
      (rasterRenderPage n pg dpi).estMem =
        dpi / 72 * pg.baseW * (dpi / 72 * pg.baseH) * 4) := by
  have hMAX : (0 : ℚ) < MAX_MEMORY_PER_IMAGE := by norm_num [MAX_MEMORY_PER_IMAGE]
  have hWH : 0 < pg.baseW * pg.baseH := mul_pos hW hH
  refine ⟨?_, ?_, ?_, ?_⟩
  · intro hgt
    have hden : (0 : ℚ) < 2 * pg.baseW * (2 * pg.baseH) * 4 := by positivity
    have hscaleSqPos : (0 : ℚ) < MAX_MEMORY_PER_IMAGE / (2 * pg.baseW * (2 * pg.baseH) * 4) :=
      div_pos hMAX hden
    simp only [embeddedRenderPage]
    rw [if_pos hgt]
    refine ⟨rfl, by norm_num, by norm_num, ?_, ?_, ?_⟩
    · rw [div_lt_iff₀ hden]
      nlinarith [hgt, hMAX, hWH]
    · have hEq : MAX_MEMORY_PER_IMAGE / (2 * pg.baseW * (2 * pg.baseH) * 4)
          * pg.baseW * pg.baseH * 4 = MAX_MEMORY_PER_IMAGE / 4 := by
        field_simp
        ring
      rw [hEq]
      linarith
    · refine ⟨Real.sqrt ((MAX_MEMORY_PER_IMAGE / (2 * pg.baseW * (2 * pg.baseH) * 4) : ℚ) : ℝ),
        ?_, ?_, ?_⟩
      · apply Real.sqrt_pos.mpr
        exact_mod_cast hscaleSqPos
      · rw [sq, Real.mul_self_sqrt]
        exact_mod_cast le_of_lt hscaleSqPos
      · have hs : Real.sqrt ((MAX_MEMORY_PER_IMAGE /
            (2 * pg.baseW * (2 * pg.baseH) * 4) : ℚ) : ℝ) ≠ 0 := by
          apply ne_of_gt
          apply Real.sqrt_pos.mpr
          exact_mod_cast hscaleSqPos
        exact mul_div_mul_left _ _ hs
  · intro hle
    simp only [embeddedRenderPage]
    rw [if_neg hle]
    exact ⟨rfl, rfl, rfl⟩
  · intro hgt
    have hden : (0 : ℚ) < dpi / 72 * pg.baseW * (dpi / 72 * pg.baseH) * 4 :=
      lt_trans hMAX hgt
    have hfrac : (0 : ℚ) < MAX_MEMORY_PER_IMAGE /
        (dpi / 72 * pg.baseW * (dpi / 72 * pg.baseH) * 4) := div_pos hMAX hden
    have hsc2 : (0 : ℚ) < (dpi / 72) ^ 2 := by positivity
    have hscaleSqPos : (0 : ℚ) < MAX_MEMORY_PER_IMAGE /
        (dpi / 72 * pg.baseW * (dpi / 72 * pg.baseH) * 4) * (dpi / 72) ^ 2 :=
      mul_pos hfrac hsc2
    simp only [rasterRenderPage]
    rw [if_pos hgt]
    refine ⟨rfl, by norm_num, by norm_num, ?_, ?_, ?_⟩
    · have hlt1 : MAX_MEMORY_PER_IMAGE /
          (dpi / 72 * pg.baseW * (dpi / 72 * pg.baseH) * 4) < 1 :=
        (div_lt_one hden).mpr hgt
      calc MAX_MEMORY_PER_IMAGE / (dpi / 72 * pg.baseW * (dpi / 72 * pg.baseH) * 4)
            * (dpi / 72) ^ 2 < 1 * (dpi / 72) ^ 2 := by
              exact mul_lt_mul_of_pos_right hlt1 hsc2
        _ = (dpi / 72) ^ 2 := one_mul _
    · have hEq : MAX_MEMORY_PER_IMAGE / (dpi / 72 * pg.baseW * (dpi / 72 * pg.baseH) * 4)
          * (dpi / 72) ^ 2 * pg.baseW * pg.baseH * 4 = MAX_MEMORY_PER_IMAGE := by
        field_simp
        ring
      rw [hEq]
    · refine ⟨Real.sqrt ((MAX_MEMORY_PER_IMAGE /
          (dpi / 72 * pg.baseW * (dpi / 72 * pg.baseH) * 4) * (dpi / 72) ^ 2 : ℚ) : ℝ),
        ?_, ?_, ?_⟩
      · apply Real.sqrt_pos.mpr
        exact_mod_cast hscaleSqPos
      · rw [sq, Real.mul_self_sqrt]
        exact_mod_cast le_of_lt hscaleSqPos
      · have hs : Real.sqrt ((MAX_MEMORY_PER_IMAGE /
            (dpi / 72 * pg.baseW * (dpi / 72 * pg.baseH) * 4) * (dpi / 72) ^ 2 : ℚ) : ℝ) ≠ 0 := by
          apply ne_of_gt
          apply Real.sqrt_pos.mpr
          exact_mod_cast hscaleSqPos
        exact mul_div_mul_left _ _ hs
  · intro hle
    simp only [rasterRenderPage]
    rw [if_neg hle]
    exact ⟨rfl, rfl, rfl⟩

/-- C6 witness: a 10000x10000-point page at the embedded pass's scale 2
exceeds the ceiling and is downgraded to JPEG within the ceiling. -/
theorem C6_witness :
    (embeddedRenderPage 1 hugePage).format = "JPEG" ∧
    (embeddedRenderPage 1 hugePage).estMem ≤ MAX_MEMORY_PER_IMAGE :=
  ⟨((C6_memory_ceiling hugePage 1 200 (by norm_num [hugePage]) (by norm_num [hugePage])
      (by norm_num)).1 (by norm_num [hugePage, MAX_MEMORY_PER_IMAGE])).1,
   ((C6_memory_ceiling hugePage 1 200 (by norm_num [hugePage]) (by norm_num [hugePage])
      (by norm_num)).1 (by norm_num [hugePage, MAX_MEMORY_PER_IMAGE])).2.2.2.2.1⟩

theorem phaseProg_mem_bounds (base span : ℚ) (n : Nat) (hspan : 0 ≤ span) :
    ∀ x ∈ phaseProg base span n, base ≤ x ∧ x ≤ base + span := by
  intro x hx
  rcases List.mem_cons.mp hx with rfl | hx2
  · exact ⟨le_refl _, by linarith⟩
  · obtain ⟨p, hp, rfl⟩ := List.mem_map.mp hx2
    rw [List.mem_range] at hp
    have hn : 0 < n := Nat.lt_of_le_of_lt (Nat.zero_le p) hp
    have hnq : (0 : ℚ) < (n : ℚ) := by exact_mod_cast hn
    have hfrac1 : ((p : ℚ) + 1) / (n : ℚ) ≤ 1 := by
      rw [div_le_one hnq]
      exact_mod_cast hp
    have hfrac0 : 0 ≤ ((p : ℚ) + 1) / (n : ℚ) := by positivity
    constructor
    · nlinarith
    · nlinarith

theorem phaseProg_last_le (base span : ℚ) (n : Nat) (hspan : 0 ≤ span) :
    ∀ x ∈ (phaseProg base span n).getLast?, x ≤ base + span := by
  intro x hx
  exact (phaseProg_mem_bounds base span n hspan x (List.mem_of_mem_getLast? hx)).2

theorem phaseProg_chain (base span : ℚ) (n : Nat) (hspan : 0 ≤ span) :
    List.Chain' (· ≤ ·) (phaseProg base span n) := by
  rw [List.chain'_iff_get]
  intro i hi
  simp only [phaseProg, List.length_cons, List.length_map, List.length_range] at hi
  have hn : 0 < n := by omega
  have hnq : (0 : ℚ) < (n : ℚ) := by exact_mod_cast hn
  rcases i with _ | j
  · simp [phaseProg]
    positivity
  · simp [phaseProg]
    have hmono : ((j : ℚ) + 1) / (n : ℚ) ≤ ((j : ℚ) + 1 + 1) / (n : ℚ) := by
      gcongr
      linarith
    nlinarith [hmono, hspan]

theorem extractEmbeddedImages_progress (pdf : PdfDoc) :
    (extractEmbeddedImages pdf).2 = phaseProg 20 50 pdf.pages.length := rfl

theorem rasterizePages_progress (pdf : PdfDoc) (maxPages : Nat) (dpi : ℚ) :
    (rasterizePages pdf maxPages dpi).2 = phaseProg 75 20 (min pdf.pages.length maxPages) := rfl

theorem phaseProg_chain_progStep (base span : ℚ) (n : Nat) (hspan : 0 ≤ span) :
    List.Chain' progStep (phaseProg base span n) :=
  (phaseProg_chain base span n hspan).imp fun _ _ h => Or.inl h

theorem phaseProg_ne_nil (base span : ℚ) (n : Nat) : phaseProg base span n ≠ [] := by
  simp [phaseProg]

theorem acquisitionPhase_progress_chain (pdf : PdfDoc) (auto : Option String)
    (a1 : List AttemptEntry) (p1 : List ℚ)
    (hp1 : List.Chain' progStep p1)
    (hlink : ∀ x ∈ p1.getLast?, progStep x 20) :
    List.Chain' progStep (acquisitionPhase pdf auto a1 p1).progress := by
  have hembC : List.Chain' progStep (extractEmbeddedImages pdf).2 := by
    rw [extractEmbeddedImages_progress]
    exact phaseProg_chain_progStep 20 50 _ (by norm_num)
  have hPE : List.Chain' progStep (p1 ++ (extractEmbeddedImages pdf).2) := by
    rw [List.chain'_append]
    refine ⟨hp1, hembC, ?_⟩
    intro x hx y hy
    rw [extractEmbeddedImages_progress] at hy
    simp [phaseProg] at hy
    subst hy
    exact hlink x hx
  have hPElast : ∀ x ∈ (p1 ++ (extractEmbeddedImages pdf).2).getLast?, x ≤ 70 := by
    intro x hx
    rw [List.getLast?_append_of_ne_nil p1
      (by rw [extractEmbeddedImages_progress]; exact phaseProg_ne_nil 20 50 _)] at hx
    rw [extractEmbeddedImages_progress] at hx
    have := phaseProg_last_le 20 50 pdf.pages.length (by norm_num) x hx
    linarith
  have hrasC : List.Chain' progStep (rasterizePages pdf (min pdf.pages.length 500) 200).2 := by
    rw [rasterizePages_progress]
    exact phaseProg_chain_progStep 75 20 _ (by norm_num)
  have hraslast : ∀ x ∈ (rasterizePages pdf (min pdf.pages.length 500) 200).2.getLast?,
      x ≤ 95 := by
    intro x hx
    rw [rasterizePages_progress] at hx
    have := phaseProg_last_le 75 20 _ (by norm_num) x hx
    linarith
  simp only [acquisitionPhase]
  split_ifs
  · rw [List.chain'_append]
    refine ⟨hPE, List.chain'_singleton _, ?_⟩
    intro x hx y hy
    simp at hy
    subst hy
    exact Or.inl (le_trans (hPElast x hx) (by norm_num))
  · rw [List.chain'_append, List.chain'_append, List.chain'_append]
    refine ⟨⟨⟨hPE, List.chain'_singleton _, ?_⟩, hrasC, ?_⟩, List.chain'_singleton _, ?_⟩
    · intro x hx y hy
      simp at hy
      subst hy
      exact Or.inl (hPElast x hx)
    · intro x hx y hy
      rw [List.getLast?_concat] at hx
      simp at hx
      rw [rasterizePages_progress] at hy
      simp [phaseProg] at hy
      subst hx
      subst hy
      exact Or.inl (by norm_num)
    · intro x hx y hy
      simp at hy
      subst hy
      refine Or.inl ?_
      rw [List.getLast?_append_of_ne_nil _
        (by rw [rasterizePages_progress]; exact phaseProg_ne_nil 75 20 _)] at hx
      exact le_trans (hraslast x hx) (by norm_num)
  · rw [List.chain'_append, List.chain'_append]
    refine ⟨⟨hPE, List.chain'_singleton _, ?_⟩, hrasC, ?_⟩
    · intro x hx y hy
      simp at hy
      subst hy
      exact Or.inl (hPElast x hx)
    · intro x hx y hy
      rw [List.getLast?_concat] at hx
      simp at hx
      rw [rasterizePages_progress] at hy
      simp [phaseProg] at hy
      subst hx
      subst hy
      exact Or.inl (by norm_num)

theorem continueWithBuffer_progress_chain (env : LoadEnv) (wi : WorkerInit) (buf : List Nat)
    (a0 : List AttemptEntry) (p0 : List ℚ)
    (hp0 : List.Chain' progStep p0)
    (hlast : ∀ x ∈ p0.getLast?, x ≤ 25) :
    List.Chain' progStep (continueWithBuffer env wi buf a0 p0).progress := by
  have hp1 : List.Chain' progStep (p0 ++ [25]) := by
    rw [List.chain'_append]
    refine ⟨hp0, List.chain'_singleton _, ?_⟩
    intro x hx y hy
    simp at hy
    subst hy
    exact Or.inl (hlast x hx)
  have hlast1 : ∀ x ∈ (p0 ++ [25]).getLast?, progStep x 20 := by
    intro x hx
    rw [List.getLast?_concat] at hx
    simp at hx
    subst hx
    exact Or.inr ⟨rfl, rfl⟩
  rcases h : (tryLoadPDFWithFallbacks env wi buf).1 with e | pdf <;>
    simp only [continueWithBuffer, h]
  · split_ifs <;> exact hp1
  · split_ifs
    · exact hp1
    · exact hp1
    · exact acquisitionPhase_progress_chain pdf _ _ _ hp1 hlast1

/-- C3 as amended: the progress percentages of one run are
non-decreasing except for a single sanctioned drop from the load phase's
closing 25 to the embedded scan's opening 20; the embedded scan reports
within 20-70 (not 25-70 as the original claim stated), and the
rasterization pass within 70-95. -/
theorem C3_progress_monotone_with_drop (env : LoadEnv) (wi : WorkerInit) (file : FileInput)
    (pdf : PdfDoc) (n : Nat) :
    List.Chain' progStep (extractImagesFromPDF env wi file).progress ∧
    (∀ x ∈ (extractEmbeddedImages pdf).2, 20 ≤ x ∧ x ≤ 70) ∧
    (∀ x ∈ (rasterizePages pdf n 200).2, 70 ≤ x ∧ x ≤ 95) := by
  refine ⟨?_, ?_, ?_⟩
  · simp only [extractImagesFromPDF]
    split_ifs with h1 h2 h3
    · exact List.chain'_singleton _
    · exact List.chain'_singleton _
    · exact continueWithBuffer_progress_chain env wi file.content _ _
        (by norm_num [List.chain'_cons, List.chain'_singleton, progStep])
        (by intro x hx; simp at hx; subst hx; norm_num)
    · rcases hrep : (attemptPDFRepair file.content).1 with _ | rb
      · show List.Chain' progStep [5, 10, 15, 20]
        norm_num [List.chain'_cons, List.chain'_singleton, progStep]
      · exact continueWithBuffer_progress_chain env wi rb _ _
          (by norm_num [List.chain'_cons, List.chain'_singleton, progStep])
          (by intro x hx; simp at hx; subst hx; norm_num)
  · intro x hx
    rw [extractEmbeddedImages_progress] at hx
    have := phaseProg_mem_bounds 20 50 pdf.pages.length (by norm_num) x hx
    constructor <;> linarith [this.1, this.2]
  · intro x hx
    rw [rasterizePages_progress] at hx
    have := phaseProg_mem_bounds 75 20 _ (by norm_num) x hx
    constructor <;> linarith [this.1, this.2]

/-- C3 counterexample: a valid one-page text-only PDF that loads on the
first configuration produces the progress sequence
`5, 10, 15, 25, 20, 70, 70, 75, 95, 100` — the transition from the
load phase's 25 to the embedded scan's opening 20 decreases, so the
sequence is not monotonically non-decreasing, and the embedded scan
reports 20, below its claimed 25-70 sub-range. -/
theorem C3_counterexample :
    (extractImagesFromPDF envAlwaysTextDoc workerOk validPdfFile).progress =
      [5, 10, 15, 25, 20, 70, 70, 75, 95, 100] ∧
    ¬ List.Chain' (· ≤ ·)
      (extractImagesFromPDF envAlwaysTextDoc workerOk validPdfFile).progress := by
  have h1 : (extractImagesFromPDF envAlwaysTextDoc workerOk validPdfFile).progress =
      [5, 10, 15, 25, 20, 70, 70, 75, 95, 100] := by
    simp only [extractImagesFromPDF, continueWithBuffer, acquisitionPhase,
      tryLoadPDFWithFallbacks, chainGo, loadMethods, envAlwaysTextDoc, workerOk, validPdfFile,
      extractEmbeddedImages, rasterizePages, phaseProg, docOneTextPage]
    norm_num [validatePDFHeader, pdfMagic5, MAX_PAGES, MAX_MEMORY_PER_IMAGE, MAX_FILE_SIZE,
      rasterRenderPage, List.range_succ]
  refine ⟨h1, ?_⟩
  rw [h1]
  intro hch
  norm_num [List.chain'_cons, List.chain'_singleton] at hch
